import Mathlib

/-!
Shallow embedding of src/queues.c from the dunst notification daemon:
the notification lifecycle engine managing the waiting, displayed and
history queues.  GQueue values become Lean lists (head of the list is the
head of the queue), the C globals become fields of an explicit state
record, external side effects (signalling closure, freeing, running
scripts, printing) are recorded in event logs inside the state, and the
externally injected comparator (notification_cmp_data) and duplicate
predicate (notification_is_duplicate) are explicit function parameters.
Calls to time_monotonic_now are modelled by an explicit `now` argument
(all calls inside a single engine operation are assumed to observe the
same instant).
-/

namespace Dunst

/-- Fullscreen behaviour of a notification (enum fullscreen_display). -/
inductive FS where
  | FS_SHOW
  | FS_DELAY
  | FS_PUSHBACK
deriving DecidableEq

/-- Modelled from the spec: the `enum reason` constants live in a header
that is not part of the measured source (only queues.c is); the spec names
the closure-reason taxonomy "user-dismissed, time-expired,
externally-signaled, replaced", and states that the superseded instance of
a stacked duplicate is signalled closed with reason = replaced, which is
how the numeric literal 1 passed by queues_stack_duplicate is rendered
here. -/
inductive Reason where
  | REASON_TIME
  | REASON_USER
  | REASON_SIG
  | REASON_REPLACED
deriving DecidableEq

/-- The notification record: the fields of struct notification that
queues.c reads or writes.  `script` abstracts the script pointer to
"has a script to run". -/
structure Notification where
  id : Int
  msg : String
  summary : String
  body : String
  progress : Int
  dup_count : Int
  start : Int
  timeout : Int
  timestamp : Int
  transient : Bool
  fullscreen : FS
  redisplayed : Bool
  history_ignore : Bool
  script : Bool
deriving DecidableEq

/-- The configuration fields of `settings` that queues.c consults. -/
structure Settings where
  always_run_script : Bool
  stack_duplicates : Bool
  print_notifications : Bool
  sticky_history : Bool
  history_length : Nat
  show_age_threshold : Int
deriving DecidableEq

/-- The mutable state of the engine: the three queues, the three globals
of queues.c (displayed_limit, next_notification_id, pause_displayed) and
logs of the externally observable side effects (most recent first). -/
structure QState where
  waiting : List Notification
  displayed : List Notification
  history : List Notification
  displayed_limit : Nat
  next_notification_id : Int
  pause_displayed : Bool
  closed_signals : List (Notification × Reason)
  freed : List Notification
  scripts : List Notification
  printed : List Notification
deriving DecidableEq

/-- queues_init plus the initial values of the file-scope globals. -/
def queues_init : QState :=
  { waiting := []
    displayed := []
    history := []
    displayed_limit := 0
    next_notification_id := 1
    pause_displayed := false
    closed_signals := []
    freed := []
    scripts := []
    printed := [] }

/-- queues_displayed_limit. -/
def queues_displayed_limit (limit : Nat) (s : QState) : QState :=
  { s with displayed_limit := limit }

/-- queues_pause_on. -/
def queues_pause_on (s : QState) : QState :=
  { s with pause_displayed := true }

/-- queues_pause_off. -/
def queues_pause_off (s : QState) : QState :=
  { s with pause_displayed := false }

/-- queues_pause_status. -/
def queues_pause_status (s : QState) : Bool :=
  s.pause_displayed

/-- g_queue_insert_sorted with comparison function `cmp` (first argument
is the element being inserted): the new element goes in front of the
first existing element it does not compare strictly greater than; if it
compares strictly greater than every element it is appended at the
tail. -/
def g_queue_insert_sorted (cmp : Notification → Notification → Int)
    (n : Notification) : List Notification → List Notification
  | [] => [n]
  | x :: xs =>
    if cmp n x > 0 then x :: g_queue_insert_sorted cmp n xs
    else n :: x :: xs

/-- One scan of queues_stack_duplicate over a single queue.  On the first
element `orig` matching the duplicate predicate it performs the in-place
slot update of the C code and returns the updated queue, the updated
incoming notification and the (mutated) superseded original; `stamp`
tells whether this is the displayed scan, which re-stamps the start time.
Returns none when no element matches. -/
def stack_dup_scan (isDup : Notification → Notification → Bool)
    (stamp : Bool) (now : Int) (n : Notification) :
    List Notification → Option (List Notification × Notification × Notification)
  | [] => none
  | orig :: rest =>
    if isDup orig n then
      let orig1 :=
        if orig.progress = n.progress then { orig with dup_count := orig.dup_count + 1 }
        else { orig with progress := n.progress }
      let n1 := { n with start := if stamp then now else n.start,
                         dup_count := orig1.dup_count }
      some (n1 :: rest, n1, orig1)
    else
      match stack_dup_scan isDup stamp now n rest with
      | none => none
      | some (l, n1, o) => some (orig :: l, n1, o)

/-- queues_stack_duplicate: scans displayed first, then waiting, for a
duplicate of `n`; on a match the slot content is swapped for `n` (with
the duplicate counter carried over, and the start time re-stamped only
for a displayed match), the superseded original is signalled closed with
reason 1 (replaced) and freed.  Returns (stacked?, updated n, state). -/
def queues_stack_duplicate (isDup : Notification → Notification → Bool)
    (now : Int) (n : Notification) (s : QState) :
    Bool × Notification × QState :=
  match stack_dup_scan isDup true now n s.displayed with
  | some (d1, n1, orig1) =>
    (true, n1,
      { s with displayed := d1
               closed_signals := (orig1, Reason.REASON_REPLACED) :: s.closed_signals
               freed := orig1 :: s.freed })
  | none =>
    match stack_dup_scan isDup false now n s.waiting with
    | some (w1, n1, orig1) =>
      (true, n1,
        { s with waiting := w1
                 closed_signals := (orig1, Reason.REASON_REPLACED) :: s.closed_signals
                 freed := orig1 :: s.freed })
    | none => (false, n, s)

/-- One scan of queues_notification_replace_id over a single queue: on
the first element with the same id the slot content is swapped for `new`
(carrying over the duplicate counter, and re-stamping the start time when
`stamp` is set, i.e. for the displayed scan).  Returns the updated queue,
the updated incoming notification and the superseded old notification;
none when no element has the id. -/
def replace_id_scan (stamp : Bool) (now : Int) (new : Notification) :
    List Notification → Option (List Notification × Notification × Notification)
  | [] => none
  | old :: rest =>
    if old.id = new.id then
      let new1 := { new with start := if stamp then now else new.start,
                             dup_count := old.dup_count }
      some (new1 :: rest, new1, old)
    else
      match replace_id_scan stamp now new rest with
      | none => none
      | some (l, n1, o) => some (old :: l, n1, o)

/-- queues_notification_replace_id: scans displayed first, then waiting,
for an entry with the same id; on a displayed match the start time is
re-stamped and the script for the new content is run, on a waiting match
neither happens; in both cases the duplicate counter is carried over and
the superseded instance is freed.  Returns (found?, updated new, state). -/
def queues_notification_replace_id (now : Int) (new : Notification)
    (s : QState) : Bool × Notification × QState :=
  match replace_id_scan true now new s.displayed with
  | some (d1, new1, old) =>
    (true, new1,
      { s with displayed := d1
               scripts := new1 :: s.scripts
               freed := old :: s.freed })
  | none =>
    match replace_id_scan false now new s.waiting with
    | some (w1, new1, old) =>
      (true, new1, { s with waiting := w1, freed := old :: s.freed })
    | none => (false, new, s)

/-- queues_notification_insert. -/
def queues_notification_insert (settings : Settings)
    (cmp : Notification → Notification → Int)
    (isDup : Notification → Notification → Bool)
    (now : Int) (n : Notification) (s : QState) : Int × QState :=
  if n.msg.length = 0 then
    (0, if settings.always_run_script then { s with scripts := n :: s.scripts } else s)
  else if n.summary = "DUNST_COMMAND_PAUSE" then
    (0, { s with pause_displayed := true })
  else if n.summary = "DUNST_COMMAND_RESUME" then
    (0, { s with pause_displayed := false })
  else if n.summary = "DUNST_COMMAND_TOGGLE" then
    (0, { s with pause_displayed := !s.pause_displayed })
  else
    let step :=
      if n.id = 0 then
        let n1 := { n with id := s.next_notification_id + 1 }
        let s1 := { s with next_notification_id := s.next_notification_id + 1 }
        if settings.stack_duplicates then
          match queues_stack_duplicate isDup now n1 s1 with
          | (true, n2, s2) => (n2, s2)
          | (false, n2, s2) =>
            (n2, { s2 with waiting := g_queue_insert_sorted cmp n2 s2.waiting })
        else
          (n1, { s1 with waiting := g_queue_insert_sorted cmp n1 s1.waiting })
      else
        match queues_notification_replace_id now n s with
        | (true, n2, s2) => (n2, s2)
        | (false, n2, s2) =>
          (n2, { s2 with waiting := g_queue_insert_sorted cmp n2 s2.waiting })
    let n2 := step.1
    let s2 := step.2
    (n2.id,
      if settings.print_notifications then { s2 with printed := n2 :: s2.printed } else s2)

/-- Removal of the first queue entry carrying a given id, as performed by
the search loops of queues_notification_close_id: returns the removed
entry (none when no entry has the id) and the remaining queue. -/
def extract_by_id (id : Int) : List Notification → Option Notification × List Notification
  | [] => (none, [])
  | n :: rest =>
    if n.id = id then (some n, rest)
    else
      match extract_by_id id rest with
      | (o, l) => (o, n :: l)

/-- queues_history_push: a history-excluded notification is freed
immediately; otherwise, when history is bounded and already at (or over)
its bound, the oldest (head) entry is popped and freed first, and the new
entry is appended at the tail. -/
def queues_history_push (settings : Settings) (n : Notification) (s : QState) : QState :=
  if !n.history_ignore then
    let s1 :=
      if settings.history_length > 0 ∧ s.history.length ≥ settings.history_length then
        match s.history with
        | [] => s
        | h :: t => { s with history := t, freed := h :: s.freed }
      else s
    { s1 with history := s1.history ++ [n] }
  else
    { s with freed := n :: s.freed }

/-- queues_notification_close_id: removes the first entry with the id
from displayed and the first entry with the id from waiting (the source
asserts that at most one of the two exists; as in a release build, when
both exist the waiting one becomes the target).  When a target was found
it is signalled closed (unless it was recalled from history) and pushed
into history; otherwise the call is a no-op. -/
def queues_notification_close_id (settings : Settings) (id : Int)
    (reason : Reason) (s : QState) : QState :=
  let rd := extract_by_id id s.displayed
  let rw := extract_by_id id s.waiting
  let s1 := { s with displayed := rd.2, waiting := rw.2 }
  let target :=
    match rw.1 with
    | some t => some t
    | none => rd.1
  match target with
  | none => s1
  | some t =>
    let s2 :=
      if !t.redisplayed then
        { s1 with closed_signals := (t, reason) :: s1.closed_signals }
      else s1
    queues_history_push settings t s2

/-- queues_notification_close. -/
def queues_notification_close (settings : Settings) (n : Notification)
    (reason : Reason) (s : QState) : QState :=
  queues_notification_close_id settings n.id reason s

/-- queues_history_pop: pops the tail of history (no-op when history is
empty), marks it redisplayed, clears its start time, zeroes its timeout
exactly when the sticky-history policy is enabled, and pushes it onto the
head of waiting. -/
def queues_history_pop (settings : Settings) (s : QState) : QState :=
  match s.history.getLast? with
  | none => s
  | some n =>
    let n1 := { n with redisplayed := true
                       start := 0
                       timeout := if settings.sticky_history then 0 else n.timeout }
    { s with history := s.history.dropLast, waiting := n1 :: s.waiting }

/-- Re-stamping of the start time of the (unique) displayed entry with a
given id, modelling the in-place pointer write n->start = now of the idle
branch of queues_check_timeouts (queue entries carry unique ids by the
documented invariant of the engine, so first-match update coincides with
the pointer write). -/
def set_start_by_id (id : Int) (now : Int) : List Notification → List Notification
  | [] => []
  | m :: rest =>
    if m.id = id then { m with start := now } :: rest
    else m :: set_start_by_id id now rest

/-- The body of the queues_check_timeouts loop for one scanned
notification `n` (the snapshot value of the visited node). -/
def queues_check_timeouts_step (settings : Settings) (is_idle : Bool)
    (now : Int) (s : QState) (n : Notification) : QState :=
  if is_idle && !n.transient then
    { s with displayed := set_start_by_id n.id now s.displayed }
  else if n.start = 0 ∨ n.timeout = 0 then s
  else if now - n.start > n.timeout then
    queues_notification_close_id settings n.id Reason.REASON_TIME s
  else s

/-- The queues_check_timeouts loop: the C code captures the next pointer
before acting, so the scan visits exactly the entries of the snapshot of
displayed taken at entry, in order. -/
def queues_check_timeouts_loop (settings : Settings) (is_idle : Bool)
    (now : Int) : List Notification → QState → QState
  | [], s => s
  | n :: rest, s =>
    queues_check_timeouts_loop settings is_idle now rest
      (queues_check_timeouts_step settings is_idle now s n)

/-- queues_check_timeouts. -/
def queues_check_timeouts (settings : Settings) (idle fullscreen : Bool)
    (now : Int) (s : QState) : QState :=
  if s.displayed.length = 0 then s
  else
    let is_idle := if fullscreen then false else idle
    queues_check_timeouts_loop settings is_idle now s.displayed s

/-- The pause branch of queues_update: pops displayed head by head,
inserting each entry into waiting at its sorted position. -/
def queues_update_drain (cmp : Notification → Notification → Int) :
    List Notification → List Notification → List Notification
  | [], w => w
  | d :: ds, w => queues_update_drain cmp ds (g_queue_insert_sorted cmp d w)

/-- The fullscreen branch of queues_update: walks displayed, moving every
entry in FS_PUSHBACK mode into waiting at its sorted position; returns
the remaining displayed queue and the new waiting queue. -/
def queues_update_pushback (cmp : Notification → Notification → Int) :
    List Notification → List Notification → List Notification × List Notification
  | [], w => ([], w)
  | n :: ds, w =>
    if n.fullscreen = FS.FS_PUSHBACK then
      queues_update_pushback cmp ds (g_queue_insert_sorted cmp n w)
    else
      let r := queues_update_pushback cmp ds w
      (n :: r.1, r.2)

/-- The promotion loop of queues_update: walks the waiting queue head to
tail (`rest`), with `kept` accumulating (in reverse) the entries that
stay in waiting.  The walk stops entirely when displayed has reached a
positive displayed_limit; under fullscreen, FS_DELAY and FS_PUSHBACK
candidates are skipped in place; every other candidate gets its start
time stamped, has its script run unless it is a redisplayed entry or has
no script, and moves into displayed at its sorted position. -/
def queues_update_promote (cmp : Notification → Notification → Int)
    (fullscreen : Bool) (now : Int) :
    List Notification → List Notification → QState → QState
  | [], kept, s => { s with waiting := kept.reverse }
  | n :: rest, kept, s =>
    if s.displayed_limit > 0 ∧ s.displayed.length ≥ s.displayed_limit then
      { s with waiting := kept.reverse ++ n :: rest }
    else if fullscreen ∧ (n.fullscreen = FS.FS_DELAY ∨ n.fullscreen = FS.FS_PUSHBACK) then
      queues_update_promote cmp fullscreen now rest (n :: kept) s
    else
      let n1 := { n with start := now }
      let s1 :=
        if !n1.redisplayed && n1.script then { s with scripts := n1 :: s.scripts } else s
      queues_update_promote cmp fullscreen now rest kept
        { s1 with displayed := g_queue_insert_sorted cmp n1 s1.displayed }

/-- queues_update. -/
def queues_update (cmp : Notification → Notification → Int)
    (fullscreen : Bool) (now : Int) (s : QState) : QState :=
  if s.pause_displayed then
    { s with waiting := queues_update_drain cmp s.displayed s.waiting
             displayed := [] }
  else
    let s1 :=
      if fullscreen then
        let r := queues_update_pushback cmp s.displayed s.waiting
        { s with displayed := r.1, waiting := r.2 }
      else s
    queues_update_promote cmp fullscreen now s1.waiting [] s1

/-- G_MAXINT64. -/
def G_MAXINT64 : Int := 9223372036854775807

/-- G_USEC_PER_SEC. -/
def G_USEC_PER_SEC : Int := 1000000

/-- The loop of queues_get_next_datachange, accumulating the minimal
sleep; a displayed entry with positive timeout whose time-to-live is
already exhausted makes the whole function return 0 immediately.  The C
% operator on gint64 truncates toward zero, hence Int.tmod. -/
def queues_get_next_datachange_loop (settings : Settings) (time : Int) :
    List Notification → Int → Int
  | [], sleep => if sleep ≠ G_MAXINT64 then sleep else -1
  | n :: rest, sleep =>
    let ttl := n.timeout - (time - n.start)
    if n.timeout > 0 ∧ ttl ≤ 0 then 0
    else
      let s1 := if n.timeout > 0 then min sleep ttl else sleep
      let s2 :=
        if settings.show_age_threshold ≥ 0 then
          let age := time - n.timestamp
          if age > settings.show_age_threshold then
            min s1 (G_USEC_PER_SEC - Int.tmod age G_USEC_PER_SEC)
          else if n.timeout = 0 ∨ ttl > settings.show_age_threshold then
            min s1 settings.show_age_threshold
          else s1
        else s1
      queues_get_next_datachange_loop settings time rest s2

/-- queues_get_next_datachange. -/
def queues_get_next_datachange (settings : Settings) (time : Int)
    (s : QState) : Int :=
  queues_get_next_datachange_loop settings time s.displayed G_MAXINT64

/-- Sortedness of a queue under the injected comparator: no adjacent pair
is ordered the wrong way round. -/
def queue_sorted (cmp : Notification → Notification → Int)
    (l : List Notification) : Prop :=
  List.Chain' (fun a b => cmp a b ≤ 0) l

/-- A sequence of history_push operations, head of the list pushed
first. -/
def queues_history_push_seq (settings : Settings) (ns : List Notification)
    (s : QState) : QState :=
  ns.foldl (fun s n => queues_history_push settings n s) s

/-- Modelled from the spec: notification creation (notification.c) is not
part of the measured source, so the duplicate counter a freshly created
notification carries is fixed from the spec, whose dedup-idempotence
property ("inserting two duplicates yields one entry whose duplicate
counter is 2") requires each fresh instance to count 1. -/
def fresh_dup_count : Int := 1

/-! ## Shared concrete fixtures for witnesses and counterexamples -/

/-- A base notification value used by concrete witnesses. -/
def nBase : Notification :=
  { id := 1, msg := "m", summary := "sum", body := "b", progress := 0,
    dup_count := 1, start := 0, timeout := 5, timestamp := 0,
    transient := false, fullscreen := FS.FS_SHOW, redisplayed := false,
    history_ignore := false, script := false }

/-- A base settings value used by concrete witnesses. -/
def stgBase : Settings :=
  { always_run_script := false, stack_duplicates := true,
    print_notifications := false, sticky_history := false,
    history_length := 2, show_age_threshold := -1 }

/-- A concrete injected comparator (orders by the progress field). -/
def cmpProg (a b : Notification) : Int := a.progress - b.progress

/-- A concrete duplicate predicate that always matches. -/
def dup_always (_ _ : Notification) : Bool := true

/-- A concrete duplicate predicate that never matches. -/
def dup_never (_ _ : Notification) : Bool := false

/-- Executable check of queue sortedness. -/
def queue_sortedb (cmp : Notification → Notification → Int) :
    List Notification → Bool
  | [] => true
  | [_] => true
  | a :: b :: rest => decide (cmp a b ≤ 0) && queue_sortedb cmp (b :: rest)

theorem queue_sortedb_iff (cmp : Notification → Notification → Int) :
    ∀ l : List Notification, queue_sortedb cmp l = true ↔ queue_sorted cmp l := by
  intro l
  match l with
  | [] => simp [queue_sortedb, queue_sorted]
  | [a] => simp [queue_sortedb, queue_sorted]
  | a :: b :: rest =>
    rw [queue_sortedb, Bool.and_eq_true, decide_eq_true_iff,
      queue_sortedb_iff cmp (b :: rest)]
    unfold queue_sorted
    rw [List.chain'_cons]

instance (cmp : Notification → Notification → Int) (l : List Notification) :
    Decidable (queue_sorted cmp l) :=
  decidable_of_iff _ (queue_sortedb_iff cmp l)

end Dunst

namespace Dunst

/-! ## C1 -/

/-- C1 (amended): popping a non-empty history marks the tail entry
redisplayed, resets its visibility-start to 0, pushes it onto the head of
waiting and removes it from the history tail; its timeout is reset to
unset (0) exactly when the sticky-history policy is enabled, and is kept
when sticky history is disabled. -/
theorem C1_history_pop_behaviour (settings : Settings) (s : QState)
    (n : Notification) (h : s.history.getLast? = some n) :
    (queues_history_pop settings s).waiting =
      { n with redisplayed := true, start := 0,
               timeout := if settings.sticky_history then 0 else n.timeout } :: s.waiting
    ∧ (queues_history_pop settings s).history = s.history.dropLast
    ∧ (settings.sticky_history = true →
        ((queues_history_pop settings s).waiting.head?.map Notification.timeout) = some 0)
    ∧ (settings.sticky_history = false →
        ((queues_history_pop settings s).waiting.head?.map Notification.timeout) = some n.timeout) := by
  unfold queues_history_pop
  rw [h]
  refine ⟨rfl, rfl, ?_, ?_⟩
  · intro hs; simp [hs]
  · intro hs; simp [hs]

/-- Witness for C1 at a concrete input: non-sticky settings and a
one-element history holding a notification of timeout 5. -/
theorem C1_history_pop_behaviour_witness :
    ({ queues_init with history := [nBase] } : QState).history.getLast? = some nBase
    ∧ (queues_history_pop stgBase { queues_init with history := [nBase] }).waiting =
        [{ nBase with redisplayed := true, start := 0, timeout := 5 }] :=
  ⟨rfl, by
    have h := C1_history_pop_behaviour stgBase
      { queues_init with history := [nBase] } nBase rfl
    simpa [stgBase, queues_init, nBase] using h.1⟩

/-- Counterexample to C1 as stated: with sticky history disabled the
claim demands the recalled timeout be reset to 0, but the code keeps the
original timeout (5 here); the code zeroes it only when sticky history is
enabled. -/
theorem C1_counterexample :
    stgBase.sticky_history = false
    ∧ (queues_history_pop stgBase { queues_init with history := [nBase] }).waiting.head?.map
        Notification.timeout = some 5
    ∧ (5 : Int) ≠ 0 := by
  refine ⟨rfl, rfl, by decide⟩

end Dunst

namespace Dunst

/-! ## C5 -/

/-- A single bounded history_push keeps the history length within the
bound. -/
theorem queues_history_push_length_le (settings : Settings) (n : Notification)
    (s : QState) (hL : 0 < settings.history_length)
    (h : s.history.length ≤ settings.history_length) :
    (queues_history_push settings n s).history.length ≤ settings.history_length := by
  unfold queues_history_push
  by_cases hi : n.history_ignore
  · simp [hi, h]
  · simp only [hi, Bool.not_false, if_true]
    by_cases hc : settings.history_length > 0 ∧ s.history.length ≥ settings.history_length
    · rw [if_pos hc]
      rcases hs : s.history with _ | ⟨hd, tl⟩
      · exfalso
        have := hc.2
        rw [hs] at this
        simp only [List.length_nil] at this
        omega
      · have := hc.2
        rw [hs] at this h
        simp only [List.length_cons] at this h
        simp only [List.length_append, List.length_cons, List.length_nil]
        omega
    · rw [if_neg hc]
      simp only [List.length_append, List.length_cons, List.length_nil]
      omega

/-- C5: whenever the history bound is positive, (1) any sequence of
history_push operations keeps the history length within the bound, (2) a
push at (or over) the bound destroys exactly the oldest (head) entry
before appending the new entry at the tail, and (3) a history-excluded
notification is destroyed immediately and never enters history. -/
theorem C5_bounded_history (settings : Settings)
    (hL : 0 < settings.history_length) :
    (∀ ns s, s.history.length ≤ settings.history_length →
      (queues_history_push_seq settings ns s).history.length ≤ settings.history_length)
    ∧ (∀ n s, n.history_ignore = false →
        s.history.length ≥ settings.history_length →
        ∃ h t, s.history = h :: t
          ∧ (queues_history_push settings n s).history = t ++ [n]
          ∧ (queues_history_push settings n s).freed = h :: s.freed)
    ∧ (∀ n s, n.history_ignore = true →
        (queues_history_push settings n s).history = s.history
        ∧ (queues_history_push settings n s).freed = n :: s.freed) := by
  refine ⟨?_, ?_, ?_⟩
  · intro ns
    induction ns with
    | nil => intro s h; exact h
    | cons n ns ih =>
      intro s h
      exact ih _ (queues_history_push_length_le settings n s hL h)
  · intro n s hi hlen
    have hne : s.history ≠ [] := by
      intro he; rw [he] at hlen; simp at hlen; omega
    rcases hs : s.history with _ | ⟨hd, tl⟩
    · exact absurd hs hne
    · have hlen2 : settings.history_length ≤ tl.length + 1 := by
        rw [hs] at hlen
        simpa using hlen
      refine ⟨hd, tl, rfl, ?_, ?_⟩ <;>
        · unfold queues_history_push
          rw [hs]
          simp [hi, hL, hlen2]
  · intro n s hi
    unfold queues_history_push
    simp [hi]

/-- Witness for C5, realising the scenario of the spec with bound 2:
pushing three notifications from the initial state keeps the history
length at 2, and with a full history the head entry is evicted. -/
theorem C5_bounded_history_witness :
    0 < stgBase.history_length
    ∧ (queues_history_push_seq stgBase [nBase, { nBase with id := 2 }, { nBase with id := 3 }]
        queues_init).history.length ≤ stgBase.history_length
    ∧ ({ queues_init with history := [nBase, { nBase with id := 2 }] } : QState).history.length
        ≥ stgBase.history_length
    ∧ nBase.history_ignore = false :=
  ⟨by decide,
   (C5_bounded_history stgBase (by decide)).1
     [nBase, { nBase with id := 2 }, { nBase with id := 3 }] queues_init (by decide),
   by decide, rfl⟩

end Dunst

namespace Dunst

/-! ## C6 -/

/-- C6 (amended): for a displayed queue holding a single notification
with positive timeout and visibility-start 0, with the age-display
threshold disabled, the wake computation at time t returns 0 as soon as
t has reached the timeout; for t below the timeout it returns the
remaining time timeout − t as long as that remainder is below the
internal no-constraint sentinel G_MAXINT64, and reports "no bound" (−1)
when the remainder reaches the sentinel. -/
theorem C6_next_wake_delay (settings : Settings)
    (hage : settings.show_age_threshold < 0) (n : Notification) (s : QState)
    (hd : s.displayed = [n]) (hT : 0 < n.timeout) (hstart : n.start = 0)
    (t : Int) :
    (n.timeout ≤ t → queues_get_next_datachange settings t s = 0)
    ∧ (t < n.timeout → n.timeout - t < G_MAXINT64 →
        queues_get_next_datachange settings t s = n.timeout - t)
    ∧ (t < n.timeout → G_MAXINT64 ≤ n.timeout - t →
        queues_get_next_datachange settings t s = -1) := by
  unfold queues_get_next_datachange
  rw [hd]
  simp only [queues_get_next_datachange_loop, hstart]
  have hage2 : ¬ settings.show_age_threshold ≥ 0 := by omega
  refine ⟨?_, ?_, ?_⟩
  · intro ht
    rw [if_pos]
    exact ⟨hT, by omega⟩
  · intro ht hlt
    rw [if_neg (by omega), if_pos hT, if_neg hage2]
    have hmin : min G_MAXINT64 (n.timeout - (t - 0)) = n.timeout - t := by
      rw [min_eq_right (by omega)]
      omega
    rw [hmin, if_pos (by omega)]
  · intro ht hge
    rw [if_neg (by omega), if_pos hT, if_neg hage2]
    have hmin : min G_MAXINT64 (n.timeout - (t - 0)) = G_MAXINT64 := by
      rw [min_eq_left (by omega)]
    rw [hmin]
    simp

/-- Witness for C6 at a concrete input: one displayed notification of
timeout 5000 started at 0, queried at time 300, yields 4700. -/
theorem C6_next_wake_delay_witness :
    stgBase.show_age_threshold < 0 ∧ (0 : Int) < 5000
    ∧ queues_get_next_datachange stgBase 300
        { queues_init with displayed := [{ nBase with timeout := 5000 }] } = 4700 :=
  ⟨by decide, by decide, by
    have h := (C6_next_wake_delay stgBase (by decide)
      { nBase with timeout := 5000 }
      { queues_init with displayed := [{ nBase with timeout := 5000 }] }
      rfl (by decide) rfl 300).2.1 (by decide) (by decide)
    simpa using h⟩

/-- Counterexample to C6 as stated: with timeout T = G_MAXINT64 (a
representable gint64 value) and t = 0 < T, the code returns −1 (the
"no wake bound" result, because the remaining time collides with the
internal sentinel), not T − t as the claim demands. -/
theorem C6_counterexample :
    queues_get_next_datachange stgBase 0
        { queues_init with displayed := [{ nBase with timeout := G_MAXINT64 }] } = -1
    ∧ (0 : Int) < G_MAXINT64
    ∧ (-1 : Int) ≠ G_MAXINT64 - 0 := by
  refine ⟨rfl, by decide, by decide⟩

end Dunst

namespace Dunst

/-! ## C7 -/

/-- The duplicate-stacking scan does not change the id of the incoming
notification. -/
theorem stack_dup_scan_id (isDup : Notification → Notification → Bool)
    (stamp : Bool) (now : Int) (n : Notification) :
    ∀ l l1 n1 o, stack_dup_scan isDup stamp now n l = some (l1, n1, o) →
      n1.id = n.id := by
  intro l
  induction l with
  | nil => intro l1 n1 o h; simp [stack_dup_scan] at h
  | cons orig rest ih =>
    intro l1 n1 o h
    by_cases hd : isDup orig n
    · simp only [stack_dup_scan, hd, if_true] at h
      cases h
      rfl
    · simp only [stack_dup_scan, hd, if_false] at h
      rcases hrec : stack_dup_scan isDup stamp now n rest with _ | ⟨l2, n2, o2⟩
      · rw [hrec] at h; simp at h
      · rw [hrec] at h
        cases h
        exact ih _ _ _ hrec

/-- The replace-by-id scan does not change the id of the incoming
notification. -/
theorem replace_id_scan_id (stamp : Bool) (now : Int) (new : Notification) :
    ∀ l l1 n1 o, replace_id_scan stamp now new l = some (l1, n1, o) →
      n1.id = new.id := by
  intro l
  induction l with
  | nil => intro l1 n1 o h; simp [replace_id_scan] at h
  | cons old rest ih =>
    intro l1 n1 o h
    by_cases hd : old.id = new.id
    · simp only [replace_id_scan, hd, if_true] at h
      cases h
      rfl
    · simp only [replace_id_scan, hd, if_false] at h
      rcases hrec : replace_id_scan stamp now new rest with _ | ⟨l2, n2, o2⟩
      · rw [hrec] at h; simp at h
      · rw [hrec] at h
        cases h
        exact ih _ _ _ hrec

/-- queues_stack_duplicate returns the incoming notification with its id
unchanged. -/
theorem queues_stack_duplicate_id (isDup : Notification → Notification → Bool)
    (now : Int) (n : Notification) (s : QState) :
    (queues_stack_duplicate isDup now n s).2.1.id = n.id := by
  unfold queues_stack_duplicate
  rcases h1 : stack_dup_scan isDup true now n s.displayed with _ | ⟨l1, n1, o1⟩
  · rcases h2 : stack_dup_scan isDup false now n s.waiting with _ | ⟨l2, n2, o2⟩
    · rfl
    · exact stack_dup_scan_id isDup false now n s.waiting l2 n2 o2 h2
  · exact stack_dup_scan_id isDup true now n s.displayed l1 n1 o1 h1

/-- queues_notification_replace_id returns the incoming notification with
its id unchanged. -/
theorem queues_notification_replace_id_id (now : Int) (new : Notification)
    (s : QState) :
    (queues_notification_replace_id now new s).2.1.id = new.id := by
  unfold queues_notification_replace_id
  rcases h1 : replace_id_scan true now new s.displayed with _ | ⟨l1, n1, o1⟩
  · rcases h2 : replace_id_scan false now new s.waiting with _ | ⟨l2, n2, o2⟩
    · rfl
    · exact replace_id_scan_id false now new s.waiting l2 n2 o2 h2
  · exact replace_id_scan_id true now new s.displayed l1 n1 o1 h1

/-- On the non-discarded path, insert returns the final identifier: the
freshly drawn counter value for an id-0 notification, the caller-supplied
id otherwise. -/
theorem queues_notification_insert_ret (settings : Settings)
    (cmp : Notification → Notification → Int)
    (isDup : Notification → Notification → Bool) (now : Int)
    (n : Notification) (s : QState)
    (hmsg : n.msg.length ≠ 0)
    (hp : n.summary ≠ "DUNST_COMMAND_PAUSE")
    (hr : n.summary ≠ "DUNST_COMMAND_RESUME")
    (ht : n.summary ≠ "DUNST_COMMAND_TOGGLE") :
    (queues_notification_insert settings cmp isDup now n s).1 =
      if n.id = 0 then s.next_notification_id + 1 else n.id := by
  unfold queues_notification_insert
  rw [if_neg hmsg, if_neg hp, if_neg hr, if_neg ht]
  by_cases hid : n.id = 0
  · rw [if_pos hid, if_pos hid]
    by_cases hstack : settings.stack_duplicates
    · rw [if_pos hstack]
      rcases hq : queues_stack_duplicate isDup now { n with id := s.next_notification_id + 1 }
          { s with next_notification_id := s.next_notification_id + 1 } with ⟨found, n2, s2⟩
      have hqid : n2.id = s.next_notification_id + 1 := by
        have := queues_stack_duplicate_id isDup now
          { n with id := s.next_notification_id + 1 }
          { s with next_notification_id := s.next_notification_id + 1 }
        rw [hq] at this
        exact this
      cases found <;> simp [hqid]
    · rw [if_neg hstack]
  · rw [if_neg hid, if_neg hid]
    rcases hq : queues_notification_replace_id now n s with ⟨found, n2, s2⟩
    have hqid : n2.id = n.id := by
      have := queues_notification_replace_id_id now n s
      rw [hq] at this
      exact this
    cases found <;> simp [hqid]

/-- C7: insert returns 0 exactly for the discarded notifications — empty
display text (with the script run first exactly when the always-run
policy is on, and the queues and pause flag untouched), or one of the
three reserved control summaries (each mutating the pause flag as
commanded and enqueueing nothing) — and for every other notification it
returns the non-zero final identifier (the freshly drawn counter value
for a fresh notification, the caller-supplied non-zero id otherwise). -/
theorem C7_insert_return (settings : Settings)
    (cmp : Notification → Notification → Int)
    (isDup : Notification → Notification → Bool) (now : Int)
    (n : Notification) (s : QState)
    (hctr : 0 ≤ s.next_notification_id) :
    ((queues_notification_insert settings cmp isDup now n s).1 = 0 ↔
      (n.msg.length = 0 ∨ n.summary = "DUNST_COMMAND_PAUSE"
        ∨ n.summary = "DUNST_COMMAND_RESUME" ∨ n.summary = "DUNST_COMMAND_TOGGLE"))
    ∧ (n.msg.length = 0 →
        (queues_notification_insert settings cmp isDup now n s).2 =
          (if settings.always_run_script then { s with scripts := n :: s.scripts } else s))
    ∧ (n.msg.length ≠ 0 → n.summary = "DUNST_COMMAND_PAUSE" →
        (queues_notification_insert settings cmp isDup now n s).2 =
          { s with pause_displayed := true })
    ∧ (n.msg.length ≠ 0 → n.summary = "DUNST_COMMAND_RESUME" →
        (queues_notification_insert settings cmp isDup now n s).2 =
          { s with pause_displayed := false })
    ∧ (n.msg.length ≠ 0 → n.summary = "DUNST_COMMAND_TOGGLE" →
        (queues_notification_insert settings cmp isDup now n s).2 =
          { s with pause_displayed := !s.pause_displayed })
    ∧ (n.msg.length ≠ 0 → n.summary ≠ "DUNST_COMMAND_PAUSE" →
        n.summary ≠ "DUNST_COMMAND_RESUME" → n.summary ≠ "DUNST_COMMAND_TOGGLE" →
        (queues_notification_insert settings cmp isDup now n s).1 =
          (if n.id = 0 then s.next_notification_id + 1 else n.id)
        ∧ (queues_notification_insert settings cmp isDup now n s).1 ≠ 0) := by
  refine ⟨?_, ?_, ?_, ?_, ?_, ?_⟩
  · constructor
    · intro h0
      by_contra hnot
      push_neg at hnot
      obtain ⟨hmsg, hp, hr, ht⟩ := hnot
      have := queues_notification_insert_ret settings cmp isDup now n s hmsg hp hr ht
      rw [this] at h0
      by_cases hid : n.id = 0
      · rw [if_pos hid] at h0; omega
      · rw [if_neg hid] at h0; exact hid h0
    · intro h
      unfold queues_notification_insert
      rcases h with h | h | h | h
      · rw [if_pos h]
      · by_cases hmsg : n.msg.length = 0
        · rw [if_pos hmsg]
        · rw [if_neg hmsg, if_pos h]
      · by_cases hmsg : n.msg.length = 0
        · rw [if_pos hmsg]
        · by_cases hp : n.summary = "DUNST_COMMAND_PAUSE"
          · rw [if_neg hmsg, if_pos hp]
          · rw [if_neg hmsg, if_neg hp, if_pos h]
      · by_cases hmsg : n.msg.length = 0
        · rw [if_pos hmsg]
        · by_cases hp : n.summary = "DUNST_COMMAND_PAUSE"
          · rw [if_neg hmsg, if_pos hp]
          · by_cases hr : n.summary = "DUNST_COMMAND_RESUME"
            · rw [if_neg hmsg, if_neg hp, if_pos hr]
            · rw [if_neg hmsg, if_neg hp, if_neg hr, if_pos h]
  · intro hmsg
    unfold queues_notification_insert
    rw [if_pos hmsg]
  · intro hmsg hp
    unfold queues_notification_insert
    rw [if_neg hmsg, if_pos hp]
  · intro hmsg hr
    unfold queues_notification_insert
    by_cases hp : n.summary = "DUNST_COMMAND_PAUSE"
    · rw [hp] at hr; simp at hr
    · rw [if_neg hmsg, if_neg hp, if_pos hr]
  · intro hmsg ht
    unfold queues_notification_insert
    by_cases hp : n.summary = "DUNST_COMMAND_PAUSE"
    · rw [hp] at ht; simp at ht
    · by_cases hr : n.summary = "DUNST_COMMAND_RESUME"
      · rw [hr] at ht; simp at ht
      · rw [if_neg hmsg, if_neg hp, if_neg hr, if_pos ht]
  · intro hmsg hp hr ht
    have hret := queues_notification_insert_ret settings cmp isDup now n s hmsg hp hr ht
    refine ⟨hret, ?_⟩
    rw [hret]
    by_cases hid : n.id = 0
    · rw [if_pos hid]; omega
    · rw [if_neg hid]; exact hid

/-- Witness for C7 at concrete inputs: a fresh non-command notification
inserted into the initial state yields the non-zero id 2 and not 0. -/
theorem C7_insert_return_witness :
    (0 : Int) ≤ queues_init.next_notification_id
    ∧ ¬((queues_notification_insert stgBase cmpProg dup_never 0
          { nBase with id := 0 } queues_init).1 = 0) :=
  ⟨by decide, by
    have h := (C7_insert_return stgBase cmpProg dup_never 0
      { nBase with id := 0 } queues_init (by decide)).1
    intro h0
    have := h.mp h0
    revert this
    decide⟩

end Dunst

namespace Dunst

/-! ## C10 -/

/-- When no queue entry carries the id, the extraction loop finds nothing
and leaves the queue unchanged. -/
theorem extract_by_id_none (id : Int) :
    ∀ l : List Notification, (∀ m ∈ l, m.id ≠ id) →
      extract_by_id id l = (none, l) := by
  intro l
  induction l with
  | nil => intro _; rfl
  | cons n rest ih =>
    intro h
    have hn : n.id ≠ id := h n (List.mem_cons_self n rest)
    have hrest := ih (fun m hm => h m (List.mem_cons_of_mem n hm))
    simp only [extract_by_id, hn, if_false, hrest]

/-- Closing an id that is live in neither displayed nor waiting is a
silent no-op. -/
theorem queues_notification_close_id_noop (settings : Settings) (id : Int)
    (reason : Reason) (s : QState)
    (hd : ∀ m ∈ s.displayed, m.id ≠ id)
    (hw : ∀ m ∈ s.waiting, m.id ≠ id) :
    queues_notification_close_id settings id reason s = s := by
  unfold queues_notification_close_id
  rw [extract_by_id_none id s.displayed hd, extract_by_id_none id s.waiting hw]

/-- C10: a fresh (id 0) insertion draws its identifier from the counter
before duplicate stacking, so when it is absorbed into the slot of an
existing duplicate, insert returns the newly drawn id, the counter has
advanced, the surviving slot carries the new id, and the superseded
notification's old id identifies no live entry — closing it afterwards is
a no-op. -/
theorem C10_fresh_id_absorbed (settings : Settings)
    (cmp : Notification → Notification → Int)
    (isDup : Notification → Notification → Bool) (now : Int)
    (n orig : Notification) (s : QState) (reason : Reason)
    (hstack : settings.stack_duplicates = true)
    (hid : n.id = 0) (hmsg : n.msg.length ≠ 0)
    (hp : n.summary ≠ "DUNST_COMMAND_PAUSE")
    (hr : n.summary ≠ "DUNST_COMMAND_RESUME")
    (ht : n.summary ≠ "DUNST_COMMAND_TOGGLE")
    (hdisp : s.displayed = []) (hwait : s.waiting = [orig])
    (hdup : isDup orig { n with id := s.next_notification_id + 1 } = true)
    (hold : orig.id ≠ s.next_notification_id + 1) :
    (queues_notification_insert settings cmp isDup now n s).1 =
      s.next_notification_id + 1
    ∧ (queues_notification_insert settings cmp isDup now n s).2.next_notification_id =
        s.next_notification_id + 1
    ∧ (∃ n2, (queues_notification_insert settings cmp isDup now n s).2.waiting = [n2]
        ∧ n2.id = s.next_notification_id + 1)
    ∧ (queues_notification_insert settings cmp isDup now n s).2.displayed = []
    ∧ queues_notification_close_id settings orig.id reason
        (queues_notification_insert settings cmp isDup now n s).2 =
      (queues_notification_insert settings cmp isDup now n s).2 := by
  have hred : queues_notification_insert settings cmp isDup now n s =
      (let n2 := { n with id := s.next_notification_id + 1,
                          dup_count := (if orig.progress = n.progress
                            then { orig with dup_count := orig.dup_count + 1 }
                            else { orig with progress := n.progress }).dup_count }
       let s2 : QState :=
         { s with waiting := [n2]
                  next_notification_id := s.next_notification_id + 1
                  closed_signals := ((if orig.progress = n.progress
                            then { orig with dup_count := orig.dup_count + 1 }
                            else { orig with progress := n.progress }),
                          Reason.REASON_REPLACED) :: s.closed_signals
                  freed := (if orig.progress = n.progress
                            then { orig with dup_count := orig.dup_count + 1 }
                            else { orig with progress := n.progress }) :: s.freed }
       (n2.id, if settings.print_notifications then { s2 with printed := n2 :: s2.printed } else s2)) := by
    unfold queues_notification_insert
    rw [if_neg hmsg, if_neg hp, if_neg hr, if_neg ht, if_pos hid, if_pos hstack]
    unfold queues_stack_duplicate
    rw [hdisp, hwait]
    simp only [stack_dup_scan, hdup, if_true]
    rfl
  rw [hred]
  dsimp only
  by_cases hpr : settings.print_notifications
  · rw [if_pos hpr]
    refine ⟨rfl, rfl, ⟨_, rfl, rfl⟩, hdisp, ?_⟩
    apply queues_notification_close_id_noop
    · intro m hm
      dsimp only at hm
      rw [hdisp] at hm
      exact absurd hm (List.not_mem_nil m)
    · intro m hm
      dsimp only at hm
      rw [List.mem_singleton] at hm
      subst hm
      intro hc
      exact hold hc.symm
  · rw [if_neg hpr]
    refine ⟨rfl, rfl, ⟨_, rfl, rfl⟩, hdisp, ?_⟩
    apply queues_notification_close_id_noop
    · intro m hm
      dsimp only at hm
      rw [hdisp] at hm
      exact absurd hm (List.not_mem_nil m)
    · intro m hm
      dsimp only at hm
      rw [List.mem_singleton] at hm
      subst hm
      intro hc
      exact hold hc.symm

/-- Witness for C10 at concrete inputs: a fresh duplicate of an existing
waiting notification of id 2 is absorbed, insert returns the new id 3,
and closing old id 2 afterwards changes nothing. -/
theorem C10_fresh_id_absorbed_witness :
    (queues_notification_insert stgBase cmpProg dup_always 7 { nBase with id := 0 }
        { queues_init with waiting := [{ nBase with id := 2 }], next_notification_id := 2 }).1 = 3 :=
  (C10_fresh_id_absorbed stgBase cmpProg dup_always 7 { nBase with id := 0 }
    { nBase with id := 2 }
    { queues_init with waiting := [{ nBase with id := 2 }], next_notification_id := 2 }
    Reason.REASON_USER rfl rfl (by decide) (by decide) (by decide) (by decide)
    rfl rfl rfl (by decide)).1

end Dunst

namespace Dunst

/-! ## C4 -/

/-- C4: with stacking enabled, inserting from the initial state a fresh
notification and then a second fresh notification that the duplicate
predicate matches with equal progress ends with exactly one queue entry
for the pair (a single waiting entry; displayed and history empty), that
entry's duplicate counter is 2, and the first instance is freed and
signalled closed with reason = replaced. -/
theorem C4_dedup_idempotence (settings : Settings)
    (cmp : Notification → Notification → Int)
    (isDup : Notification → Notification → Bool)
    (now1 now2 : Int) (a b : Notification)
    (hstack : settings.stack_duplicates = true)
    (ha_id : a.id = 0) (hb_id : b.id = 0)
    (ha_msg : a.msg.length ≠ 0) (hb_msg : b.msg.length ≠ 0)
    (hap : a.summary ≠ "DUNST_COMMAND_PAUSE")
    (har : a.summary ≠ "DUNST_COMMAND_RESUME")
    (hat : a.summary ≠ "DUNST_COMMAND_TOGGLE")
    (hbp : b.summary ≠ "DUNST_COMMAND_PAUSE")
    (hbr : b.summary ≠ "DUNST_COMMAND_RESUME")
    (hbt : b.summary ≠ "DUNST_COMMAND_TOGGLE")
    (ha_dc : a.dup_count = fresh_dup_count)
    (hprog : a.progress = b.progress)
    (hdup : isDup { a with id := 2 } { b with id := 3 } = true) :
    (queues_notification_insert settings cmp isDup now2 b
        (queues_notification_insert settings cmp isDup now1 a queues_init).2).1 = 3
    ∧ (queues_notification_insert settings cmp isDup now2 b
        (queues_notification_insert settings cmp isDup now1 a queues_init).2).2.waiting =
      [{ b with id := 3, dup_count := 2 }]
    ∧ (queues_notification_insert settings cmp isDup now2 b
        (queues_notification_insert settings cmp isDup now1 a queues_init).2).2.displayed = []
    ∧ (queues_notification_insert settings cmp isDup now2 b
        (queues_notification_insert settings cmp isDup now1 a queues_init).2).2.history = []
    ∧ (queues_notification_insert settings cmp isDup now2 b
        (queues_notification_insert settings cmp isDup now1 a queues_init).2).2.freed =
      [{ a with id := 2, dup_count := 2 }]
    ∧ (queues_notification_insert settings cmp isDup now2 b
        (queues_notification_insert settings cmp isDup now1 a queues_init).2).2.closed_signals =
      [({ a with id := 2, dup_count := 2 }, Reason.REASON_REPLACED)] := by
  have hred1 : (queues_notification_insert settings cmp isDup now1 a queues_init).2 =
      (if settings.print_notifications then
        { queues_init with waiting := [{ a with id := 2 }], next_notification_id := 2,
                           printed := [{ a with id := 2 }] }
      else
        { queues_init with waiting := [{ a with id := 2 }], next_notification_id := 2 }) := by
    unfold queues_notification_insert
    rw [if_neg ha_msg, if_neg hap, if_neg har, if_neg hat, if_pos ha_id, if_pos hstack]
    unfold queues_stack_duplicate
    show (if settings.print_notifications then _ else _) = _
    rfl
  have key : ∀ pl : List Notification,
      queues_notification_insert settings cmp isDup now2 b
        { queues_init with waiting := [{ a with id := 2 }], next_notification_id := 2,
                           printed := pl } =
      (3,
        (if settings.print_notifications then
          { queues_init with
              waiting := [{ b with id := 3, dup_count := a.dup_count + 1 }]
              next_notification_id := 3
              closed_signals := [({ a with id := 2, dup_count := a.dup_count + 1 },
                Reason.REASON_REPLACED)]
              freed := [{ a with id := 2, dup_count := a.dup_count + 1 }]
              printed := { b with id := 3, dup_count := a.dup_count + 1 } :: pl }
        else
          { queues_init with
              waiting := [{ b with id := 3, dup_count := a.dup_count + 1 }]
              next_notification_id := 3
              closed_signals := [({ a with id := 2, dup_count := a.dup_count + 1 },
                Reason.REASON_REPLACED)]
              freed := [{ a with id := 2, dup_count := a.dup_count + 1 }]
              printed := pl })) := by
    intro pl
    unfold queues_notification_insert
    rw [if_neg hb_msg, if_neg hbp, if_neg hbr, if_neg hbt, if_pos hb_id, if_pos hstack]
    unfold queues_stack_duplicate
    have h23 : (2 : Int) + 1 = 3 := by decide
    simp only [h23]
    simp only [stack_dup_scan, hdup, if_true]
    simp only [hprog, eq_self_iff_true, if_true]
    rfl
  by_cases hpr : settings.print_notifications
  · rw [hred1, if_pos hpr, key, if_pos hpr]
    have h2 : a.dup_count + 1 = 2 := by rw [ha_dc]; rfl
    rw [h2]
    exact ⟨rfl, rfl, rfl, rfl, rfl, rfl⟩
  · rw [hred1, if_neg hpr, key, if_neg hpr]
    have h2 : a.dup_count + 1 = 2 := by rw [ha_dc]; rfl
    rw [h2]
    exact ⟨rfl, rfl, rfl, rfl, rfl, rfl⟩

/-- Witness for C4 at concrete inputs: two fresh duplicates of nBase with
equal progress collapse to one waiting entry of duplicate counter 2. -/
theorem C4_dedup_idempotence_witness :
    (queues_notification_insert stgBase cmpProg dup_always 1 { nBase with id := 0 }
        (queues_notification_insert stgBase cmpProg dup_always 0
          { nBase with id := 0 } queues_init).2).2.waiting =
      [{ nBase with id := 3, dup_count := 2 }] := by
  have h := (C4_dedup_idempotence stgBase cmpProg dup_always 0 1
    { nBase with id := 0 } { nBase with id := 0 }
    rfl rfl rfl (by decide) (by decide) (by decide) (by decide) (by decide)
    (by decide) (by decide) (by decide) rfl rfl rfl).2.1
  simpa using h

end Dunst

namespace Dunst

/-! ## C3 -/

/-- Characterisation of a successful replace-by-id scan: the superseded
entry is the first entry carrying the incoming id, the incoming
notification adopts its duplicate counter (and the re-stamped start time
when scanning displayed), and the queue is updated by swapping exactly
that slot. -/
theorem replace_id_scan_spec (stamp : Bool) (now : Int) (new : Notification) :
    ∀ l l1 n1 o, replace_id_scan stamp now new l = some (l1, n1, o) →
      o.id = new.id
      ∧ n1 = { new with start := if stamp then now else new.start,
                        dup_count := o.dup_count }
      ∧ ∃ i, l.get? i = some o ∧ l1 = l.set i n1
          ∧ ∀ j, j < i → ∀ m, l.get? j = some m → m.id ≠ new.id := by
  intro l
  induction l with
  | nil => intro l1 n1 o h; simp [replace_id_scan] at h
  | cons old rest ih =>
    intro l1 n1 o h
    by_cases hd : old.id = new.id
    · simp only [replace_id_scan, hd, if_true] at h
      cases h
      refine ⟨hd, rfl, 0, rfl, rfl, ?_⟩
      intro j hj
      omega
    · simp only [replace_id_scan, hd, if_false] at h
      rcases hrec : replace_id_scan stamp now new rest with _ | ⟨l2, n2, o2⟩
      · rw [hrec] at h; simp at h
      · rw [hrec] at h
        cases h
        obtain ⟨h1, h2, i, hi1, hi2, hi3⟩ := ih _ _ _ hrec
        refine ⟨h1, h2, i + 1, ?_, ?_, ?_⟩
        · simpa using hi1
        · simp [hi2]
        · intro j hj m hm
          cases j with
          | zero =>
            simp only [List.get?_cons_zero, Option.some.injEq] at hm
            rw [← hm]
            exact hd
          | succ k =>
            simp only [List.get?_cons_succ] at hm
            exact hi3 k (by omega) m hm

/-- When no entry of the queue carries the incoming id, the replace-by-id
scan finds nothing. -/
theorem replace_id_scan_none (stamp : Bool) (now : Int) (new : Notification) :
    ∀ l, (∀ m ∈ l, m.id ≠ new.id) → replace_id_scan stamp now new l = none := by
  intro l
  induction l with
  | nil => intro _; rfl
  | cons old rest ih =>
    intro h
    have hold : old.id ≠ new.id := h old (List.mem_cons_self old rest)
    rw [replace_id_scan, if_neg hold, ih (fun m hm => h m (List.mem_cons_of_mem old hm))]

/-- C3 (amended): an insert carrying a non-zero caller-supplied id
searches displayed first, then waiting, for an entry with that id; on a
match the matching slot's content (the first such slot) is swapped for
the new notification, the duplicate counter is carried over, the
visibility-start is re-stamped to now only when the match was in
displayed, the display script is invoked for the new content only when
the match was in displayed (a waiting match runs no script), the
superseded instance is destroyed, and a match is reported; when no entry
of either queue carries the id, no match is reported and the caller
inserts the notification into waiting at its sorted position.  In all
cases insert returns the caller-supplied id. -/
theorem C3_replace_by_id (settings : Settings)
    (cmp : Notification → Notification → Int)
    (isDup : Notification → Notification → Bool) (now : Int)
    (new : Notification) (s : QState)
    (hmsg : new.msg.length ≠ 0)
    (hp : new.summary ≠ "DUNST_COMMAND_PAUSE")
    (hr : new.summary ≠ "DUNST_COMMAND_RESUME")
    (ht : new.summary ≠ "DUNST_COMMAND_TOGGLE")
    (hid : new.id ≠ 0) :
    (∀ d1 n1 o, replace_id_scan true now new s.displayed = some (d1, n1, o) →
      (queues_notification_replace_id now new s).1 = true
      ∧ (queues_notification_replace_id now new s).2.2.displayed = d1
      ∧ n1 = { new with start := now, dup_count := o.dup_count }
      ∧ (∃ i, s.displayed.get? i = some o ∧ d1 = s.displayed.set i n1
          ∧ ∀ j, j < i → ∀ m, s.displayed.get? j = some m → m.id ≠ new.id)
      ∧ (queues_notification_replace_id now new s).2.2.scripts = n1 :: s.scripts
      ∧ (queues_notification_replace_id now new s).2.2.freed = o :: s.freed
      ∧ (queues_notification_insert settings cmp isDup now new s).1 = new.id)
    ∧ (replace_id_scan true now new s.displayed = none →
      ∀ w1 n1 o, replace_id_scan false now new s.waiting = some (w1, n1, o) →
      (queues_notification_replace_id now new s).1 = true
      ∧ (queues_notification_replace_id now new s).2.2.waiting = w1
      ∧ n1 = { new with dup_count := o.dup_count }
      ∧ (∃ i, s.waiting.get? i = some o ∧ w1 = s.waiting.set i n1
          ∧ ∀ j, j < i → ∀ m, s.waiting.get? j = some m → m.id ≠ new.id)
      ∧ (queues_notification_replace_id now new s).2.2.scripts = s.scripts
      ∧ (queues_notification_replace_id now new s).2.2.freed = o :: s.freed
      ∧ (queues_notification_insert settings cmp isDup now new s).1 = new.id)
    ∧ ((∀ m ∈ s.displayed, m.id ≠ new.id) → (∀ m ∈ s.waiting, m.id ≠ new.id) →
      (queues_notification_replace_id now new s).1 = false
      ∧ (queues_notification_insert settings cmp isDup now new s).2.waiting =
          g_queue_insert_sorted cmp new s.waiting
      ∧ (queues_notification_insert settings cmp isDup now new s).1 = new.id) := by
  refine ⟨?_, ?_, ?_⟩
  · intro d1 n1 o hscan
    have hrep : queues_notification_replace_id now new s =
        (true, n1, { s with displayed := d1, scripts := n1 :: s.scripts,
                            freed := o :: s.freed }) := by
      unfold queues_notification_replace_id
      rw [hscan]
    obtain ⟨ho, hn1, hpos⟩ := replace_id_scan_spec true now new s.displayed d1 n1 o hscan
    refine ⟨by rw [hrep], by rw [hrep], by simpa using hn1, hpos,
      by rw [hrep], by rw [hrep], ?_⟩
    unfold queues_notification_insert
    rw [if_neg hmsg, if_neg hp, if_neg hr, if_neg ht, if_neg hid]
    simp only [hrep]
    have : n1.id = new.id := by rw [hn1]
    by_cases hpr : settings.print_notifications <;> simp [hpr, this]
  · intro hnone w1 n1 o hscan
    have hrep : queues_notification_replace_id now new s =
        (true, n1, { s with waiting := w1, freed := o :: s.freed }) := by
      unfold queues_notification_replace_id
      rw [hnone, hscan]
    obtain ⟨ho, hn1, hpos⟩ := replace_id_scan_spec false now new s.waiting w1 n1 o hscan
    refine ⟨by rw [hrep], by rw [hrep], by simpa using hn1, hpos,
      by rw [hrep], by rw [hrep], ?_⟩
    unfold queues_notification_insert
    rw [if_neg hmsg, if_neg hp, if_neg hr, if_neg ht, if_neg hid]
    simp only [hrep]
    have : n1.id = new.id := by rw [hn1]
    by_cases hpr : settings.print_notifications <;> simp [hpr, this]
  · intro hd hw
    have hrep : queues_notification_replace_id now new s = (false, new, s) := by
      unfold queues_notification_replace_id
      rw [replace_id_scan_none true now new s.displayed hd,
          replace_id_scan_none false now new s.waiting hw]
    refine ⟨by rw [hrep], ?_, ?_⟩
    · unfold queues_notification_insert
      rw [if_neg hmsg, if_neg hp, if_neg hr, if_neg ht, if_neg hid]
      simp only [hrep]
      by_cases hpr : settings.print_notifications <;> simp [hpr]
    · unfold queues_notification_insert
      rw [if_neg hmsg, if_neg hp, if_neg hr, if_neg ht, if_neg hid]
      simp only [hrep]

/-- Witness for C3 at concrete inputs: replacing the waiting entry of
id 7 reports a match, frees the superseded instance, runs no script, and
insert returns 7. -/
theorem C3_replace_by_id_witness :
    (queues_notification_replace_id 50 { nBase with id := 7, dup_count := 42 }
        { queues_init with waiting := [{ nBase with id := 7, script := true }] }).1 = true
    ∧ (queues_notification_replace_id 50 { nBase with id := 7, dup_count := 42 }
        { queues_init with waiting := [{ nBase with id := 7, script := true }] }).2.2.scripts
        = [] := by
  have h := (C3_replace_by_id stgBase cmpProg dup_never 50
    { nBase with id := 7, dup_count := 42 }
    { queues_init with waiting := [{ nBase with id := 7, script := true }] }
    (by decide) (by decide) (by decide) (by decide) (by decide)).2.1 rfl
    [{ nBase with id := 7, dup_count := 1 }]
    { nBase with id := 7, dup_count := 1 }
    { nBase with id := 7, script := true } (by decide)
  exact ⟨h.1, h.2.2.2.2.1.trans rfl⟩

/-- Counterexample to C3 as stated: an insert with non-zero id 7 matching
a waiting entry swaps the slot and destroys the superseded instance (a
match is found and reported via the returned id), yet the display script
is not invoked — the code runs the script only for a displayed match,
while the claim demands it for every match. -/
theorem C3_counterexample :
    (queues_notification_insert stgBase cmpProg dup_never 50
        { nBase with id := 7, script := true, dup_count := 42 }
        { queues_init with waiting := [{ nBase with id := 7, script := true }] }).1 = 7
    ∧ (queues_notification_insert stgBase cmpProg dup_never 50
        { nBase with id := 7, script := true, dup_count := 42 }
        { queues_init with waiting := [{ nBase with id := 7, script := true }] }).2.freed =
      [{ nBase with id := 7, script := true }]
    ∧ (queues_notification_insert stgBase cmpProg dup_never 50
        { nBase with id := 7, script := true, dup_count := 42 }
        { queues_init with waiting := [{ nBase with id := 7, script := true }] }).2.scripts =
      [] := by
  refine ⟨rfl, rfl, rfl⟩

end Dunst

namespace Dunst

/-! ## C8 -/

/-- Pushing a non-excluded notification preserves the other queues and
the closure log, and always leaves the pushed entry at the history
tail. -/
theorem queues_history_push_fields (settings : Settings) (n : Notification)
    (s : QState) (hig : n.history_ignore = false) :
    (queues_history_push settings n s).waiting = s.waiting
    ∧ (queues_history_push settings n s).displayed = s.displayed
    ∧ (queues_history_push settings n s).closed_signals = s.closed_signals
    ∧ (queues_history_push settings n s).history.getLast? = some n := by
  unfold queues_history_push
  simp only [hig, Bool.not_false, if_true]
  by_cases hb : settings.history_length > 0 ∧ s.history.length ≥ settings.history_length
  · rw [if_pos hb]
    rcases hh : s.history with _ | ⟨hd, tl⟩
    · exact ⟨rfl, rfl, rfl, by simp⟩
    · exact ⟨rfl, rfl, rfl, by simp⟩
  · rw [if_neg hb]
    exact ⟨rfl, rfl, rfl, by simp⟩

/-- C8: (1) with fullscreen active, check_timeouts behaves exactly as if
the idle flag were false; and for each scanned displayed notification,
(2) when effectively idle and the notification is not transient its
visibility-start is refreshed to now and nothing is closed, (3) an entry
with unset start or unset timeout is never auto-expired (the scan step
leaves the state untouched), (4) otherwise the entry is closed with
reason time-expired exactly when its elapsed visible time exceeds its
timeout; and (5) closing an id held (uniquely) by a displayed entry that
is neither redisplayed nor history-excluded removes it from displayed,
signals its closure with the given reason, and lands it at the history
tail. -/
theorem C8_check_timeouts (settings : Settings) :
    (∀ (idle : Bool) (now : Int) (s : QState),
      queues_check_timeouts settings idle true now s =
        queues_check_timeouts settings false true now s)
    ∧ (∀ (is_idle : Bool) (now : Int) (s : QState) (n : Notification),
        (is_idle && !n.transient) = true →
        queues_check_timeouts_step settings is_idle now s n =
          { s with displayed := set_start_by_id n.id now s.displayed }
        ∧ (queues_check_timeouts_step settings is_idle now s n).history = s.history
        ∧ (queues_check_timeouts_step settings is_idle now s n).closed_signals =
            s.closed_signals)
    ∧ (∀ (is_idle : Bool) (now : Int) (s : QState) (n : Notification),
        (is_idle && !n.transient) = false →
        (n.start = 0 ∨ n.timeout = 0) →
        queues_check_timeouts_step settings is_idle now s n = s)
    ∧ (∀ (is_idle : Bool) (now : Int) (s : QState) (n : Notification),
        (is_idle && !n.transient) = false →
        n.start ≠ 0 → n.timeout ≠ 0 →
        (now - n.start > n.timeout →
          queues_check_timeouts_step settings is_idle now s n =
            queues_notification_close_id settings n.id Reason.REASON_TIME s)
        ∧ (¬(now - n.start > n.timeout) →
          queues_check_timeouts_step settings is_idle now s n = s))
    ∧ (∀ (id : Int) (reason : Reason) (s : QState) (m : Notification)
        (d1 : List Notification),
        extract_by_id id s.displayed = (some m, d1) →
        extract_by_id id s.waiting = (none, s.waiting) →
        m.redisplayed = false → m.history_ignore = false →
        (queues_notification_close_id settings id reason s).displayed = d1
        ∧ (queues_notification_close_id settings id reason s).waiting = s.waiting
        ∧ (queues_notification_close_id settings id reason s).closed_signals =
            (m, reason) :: s.closed_signals
        ∧ (queues_notification_close_id settings id reason s).history.getLast? = some m) := by
  refine ⟨?_, ?_, ?_, ?_, ?_⟩
  · intro idle now s
    unfold queues_check_timeouts
    rfl
  · intro is_idle now s n h
    unfold queues_check_timeouts_step
    rw [if_pos h]
    exact ⟨rfl, rfl, rfl⟩
  · intro is_idle now s n h h2
    unfold queues_check_timeouts_step
    rw [if_neg (by rw [h]; exact Bool.false_ne_true), if_pos h2]
  · intro is_idle now s n h h2 h3
    constructor
    · intro hex
      unfold queues_check_timeouts_step
      rw [if_neg (by rw [h]; exact Bool.false_ne_true),
          if_neg (by rintro (hc | hc) <;> [exact h2 hc; exact h3 hc]), if_pos hex]
    · intro hex
      unfold queues_check_timeouts_step
      rw [if_neg (by rw [h]; exact Bool.false_ne_true),
          if_neg (by rintro (hc | hc) <;> [exact h2 hc; exact h3 hc]), if_neg hex]
  · intro id reason s m d1 hd hw hred hig
    unfold queues_notification_close_id
    rw [hd, hw]
    simp only [hred, Bool.not_false, if_true]
    obtain ⟨hW, hD, hC, hL⟩ := queues_history_push_fields settings m
      { s with displayed := d1, waiting := s.waiting,
               closed_signals := (m, reason) :: s.closed_signals } hig
    exact ⟨by rw [hD], by rw [hW], by rw [hC], hL⟩

/-- Witness for C8 at concrete inputs: an effectively idle scan step over
a non-transient displayed notification refreshes its start time to 9. -/
theorem C8_check_timeouts_witness :
    queues_check_timeouts_step stgBase true 9
        { queues_init with displayed := [nBase] } nBase =
      { queues_init with displayed := set_start_by_id nBase.id 9 [nBase] } :=
  ((C8_check_timeouts stgBase).2.1 true 9
    { queues_init with displayed := [nBase] } nBase rfl).1

end Dunst

namespace Dunst

/-! ## C9 -/

/-- Sorted insertion adds exactly one element. -/
theorem g_queue_insert_sorted_length (cmp : Notification → Notification → Int)
    (n : Notification) : ∀ l : List Notification,
    (g_queue_insert_sorted cmp n l).length = l.length + 1 := by
  intro l
  induction l with
  | nil => rfl
  | cons x xs ih =>
    unfold g_queue_insert_sorted
    by_cases h : cmp n x > 0
    · rw [if_pos h]
      simp only [List.length_cons, ih]
    · rw [if_neg h]
      simp

/-- Draining displayed into waiting preserves the total number of
entries. -/
theorem queues_update_drain_length (cmp : Notification → Notification → Int) :
    ∀ ds w : List Notification,
      (queues_update_drain cmp ds w).length = ds.length + w.length := by
  intro ds
  induction ds with
  | nil => intro w; simp [queues_update_drain]
  | cons d ds ih =>
    intro w
    unfold queues_update_drain
    rw [ih, g_queue_insert_sorted_length]
    simp only [List.length_cons]
    omega

/-- The displayed queue left by the fullscreen pushback walk is a
sublist of the original displayed queue. -/
theorem queues_update_pushback_fst_sublist (cmp : Notification → Notification → Int) :
    ∀ ds w : List Notification,
      (queues_update_pushback cmp ds w).1.Sublist ds := by
  intro ds
  induction ds with
  | nil => intro w; simp [queues_update_pushback]
  | cons n ds ih =>
    intro w
    unfold queues_update_pushback
    by_cases h : n.fullscreen = FS.FS_PUSHBACK
    · rw [if_pos h]
      exact (ih _).cons n
    · rw [if_neg h]
      exact (ih w).cons₂ n

/-- With no displayed limit and fullscreen inactive, the promotion walk
empties the waiting tail it is given and grows displayed by exactly that
many entries. -/
theorem queues_update_promote_all (cmp : Notification → Notification → Int)
    (now : Int) :
    ∀ (rest kept : List Notification) (s : QState), s.displayed_limit = 0 →
      (queues_update_promote cmp false now rest kept s).waiting = kept.reverse
      ∧ (queues_update_promote cmp false now rest kept s).displayed.length =
          s.displayed.length + rest.length := by
  intro rest
  induction rest with
  | nil => intro kept s h; exact ⟨rfl, by simp [queues_update_promote]⟩
  | cons n rest ih =>
    intro kept s h
    unfold queues_update_promote
    rw [if_neg (by rw [h]; simp), if_neg (by simp)]
    dsimp only
    by_cases hs : (!n.redisplayed && n.script) = true
    · rw [if_pos hs]
      try dsimp only
      obtain ⟨h1, h2⟩ := ih kept
        { s with scripts := { n with start := now } :: s.scripts,
                 displayed := g_queue_insert_sorted cmp { n with start := now } s.displayed } h
      refine ⟨h1, ?_⟩
      rw [h2]
      simp only [g_queue_insert_sorted_length, List.length_cons]
      omega
    · rw [if_neg hs]
      try dsimp only
      obtain ⟨h1, h2⟩ := ih kept
        { s with displayed := g_queue_insert_sorted cmp { n with start := now } s.displayed } h
      refine ⟨h1, ?_⟩
      rw [h2]
      simp only [g_queue_insert_sorted_length, List.length_cons]
      omega

/-- With a positive displayed limit, the promotion walk never pushes the
displayed queue beyond the limit. -/
theorem queues_update_promote_bound (cmp : Notification → Notification → Int)
    (fullscreen : Bool) (now : Int) :
    ∀ (rest kept : List Notification) (s : QState), 0 < s.displayed_limit →
      s.displayed.length ≤ s.displayed_limit →
      (queues_update_promote cmp fullscreen now rest kept s).displayed.length ≤
        s.displayed_limit
      ∧ (queues_update_promote cmp fullscreen now rest kept s).displayed_limit =
          s.displayed_limit := by
  intro rest
  induction rest with
  | nil => intro kept s hpos hle; exact ⟨hle, rfl⟩
  | cons n rest ih =>
    intro kept s hpos hle
    unfold queues_update_promote
    by_cases hfull : s.displayed_limit > 0 ∧ s.displayed.length ≥ s.displayed_limit
    · rw [if_pos hfull]
      exact ⟨hle, rfl⟩
    · rw [if_neg hfull]
      have hlt : s.displayed.length < s.displayed_limit := by
        rcases Nat.lt_or_ge s.displayed.length s.displayed_limit with h | h
        · exact h
        · exact absurd ⟨hpos, h⟩ hfull
      by_cases hskip : fullscreen = true ∧ (n.fullscreen = FS.FS_DELAY ∨ n.fullscreen = FS.FS_PUSHBACK)
      · rw [if_pos hskip]
        exact ih (n :: kept) s hpos hle
      · rw [if_neg hskip]
        dsimp only
        by_cases hs : (!n.redisplayed && n.script) = true
        · rw [if_pos hs]
          try dsimp only
          exact ih kept
            { s with scripts := { n with start := now } :: s.scripts,
                     displayed := g_queue_insert_sorted cmp { n with start := now } s.displayed }
            hpos (by
              simp only [g_queue_insert_sorted_length]
              omega)
        · rw [if_neg hs]
          try dsimp only
          exact ih kept
            { s with displayed := g_queue_insert_sorted cmp { n with start := now } s.displayed }
            hpos (by
              simp only [g_queue_insert_sorted_length]
              omega)

/-- C9: while paused, update drains displayed into sorted positions of
waiting, leaves displayed empty (so its length never grows), and promotes
nothing; with pause off and no limit an update promotes everything in
waiting; a positive limit is never exceeded by an update that starts
within it; and after clearing the pause flag a further update promotes
the previously displayed entries back: displayed regains exactly the
drained population, waiting empties. -/
theorem C9_pause_semantics (cmp : Notification → Notification → Int)
    (now now2 : Int) (s : QState) :
    (s.pause_displayed = true → ∀ fullscreen,
      (queues_update cmp fullscreen now s).displayed = []
      ∧ (queues_update cmp fullscreen now s).waiting =
          queues_update_drain cmp s.displayed s.waiting
      ∧ (queues_update cmp fullscreen now s).displayed.length ≤ s.displayed.length)
    ∧ (s.pause_displayed = false → s.displayed_limit = 0 →
      (queues_update cmp false now s).waiting = []
      ∧ (queues_update cmp false now s).displayed.length =
          s.displayed.length + s.waiting.length)
    ∧ (∀ fullscreen, s.pause_displayed = false → 0 < s.displayed_limit →
      s.displayed.length ≤ s.displayed_limit →
      (queues_update cmp fullscreen now s).displayed.length ≤ s.displayed_limit)
    ∧ (s.pause_displayed = true → s.displayed_limit = 0 → ∀ fullscreen,
      (queues_update cmp false now2
          (queues_pause_off (queues_update cmp fullscreen now s))).waiting = []
      ∧ (queues_update cmp false now2
          (queues_pause_off (queues_update cmp fullscreen now s))).displayed.length =
        s.displayed.length + s.waiting.length) := by
  have hpause : s.pause_displayed = true → ∀ fullscreen,
      queues_update cmp fullscreen now s =
        { s with waiting := queues_update_drain cmp s.displayed s.waiting,
                 displayed := [] } := by
    intro hp fullscreen
    unfold queues_update
    rw [if_pos hp]
  refine ⟨?_, ?_, ?_, ?_⟩
  · intro hp fullscreen
    rw [hpause hp fullscreen]
    exact ⟨rfl, rfl, by simp⟩
  · intro hp hlim
    unfold queues_update
    rw [if_neg (by rw [hp]; exact Bool.false_ne_true), if_neg (by simp)]
    obtain ⟨h1, h2⟩ := queues_update_promote_all cmp now2 s.waiting [] s hlim
    constructor
    · have := queues_update_promote_all cmp now s.waiting [] s hlim
      rw [this.1]
      rfl
    · exact (queues_update_promote_all cmp now s.waiting [] s hlim).2
  · intro fullscreen hp hpos hle
    unfold queues_update
    rw [if_neg (by rw [hp]; exact Bool.false_ne_true)]
    by_cases hf : fullscreen = true
    · rw [if_pos hf]
      have hsub := queues_update_pushback_fst_sublist cmp s.displayed s.waiting
      have hlen : (queues_update_pushback cmp s.displayed s.waiting).1.length ≤
          s.displayed.length := hsub.length_le
      exact (queues_update_promote_bound cmp fullscreen now _ []
        { s with displayed := (queues_update_pushback cmp s.displayed s.waiting).1,
                 waiting := (queues_update_pushback cmp s.displayed s.waiting).2 }
        hpos (by
          show (queues_update_pushback cmp s.displayed s.waiting).1.length ≤
            s.displayed_limit
          omega)).1
    · rw [if_neg hf]
      exact (queues_update_promote_bound cmp fullscreen now s.waiting [] s hpos hle).1
  · intro hp hlim fullscreen
    rw [hpause hp fullscreen]
    have hoff : queues_pause_off
        { s with waiting := queues_update_drain cmp s.displayed s.waiting,
                 displayed := [] } =
        { s with waiting := queues_update_drain cmp s.displayed s.waiting,
                 displayed := [], pause_displayed := false } := rfl
    rw [hoff]
    unfold queues_update
    rw [if_neg (by simp), if_neg (by simp)]
    obtain ⟨h1, h2⟩ := queues_update_promote_all cmp now2
      (queues_update_drain cmp s.displayed s.waiting) []
      { s with waiting := queues_update_drain cmp s.displayed s.waiting,
               displayed := [], pause_displayed := false } hlim
    refine ⟨by rw [h1]; rfl, ?_⟩
    rw [h2]
    simp only [List.length_nil]
    rw [queues_update_drain_length]
    omega

/-- Witness for C9 at concrete inputs: with the pause flag set, an update
on one displayed and one waiting notification empties displayed. -/
theorem C9_pause_semantics_witness :
    (queues_update cmpProg false 5
        { queues_init with displayed := [nBase], waiting := [{ nBase with id := 2 }],
                           pause_displayed := true }).displayed = [] :=
  ((C9_pause_semantics cmpProg 5 0
    { queues_init with displayed := [nBase], waiting := [{ nBase with id := 2 }],
                       pause_displayed := true }).1 rfl false).1

end Dunst

namespace Dunst

/-! ## C2 -/

/-- Membership in a sorted insertion. -/
theorem mem_g_queue_insert_sorted (cmp : Notification → Notification → Int)
    (n : Notification) : ∀ (l : List Notification) (y : Notification),
    y ∈ g_queue_insert_sorted cmp n l ↔ y = n ∨ y ∈ l := by
  intro l
  induction l with
  | nil => intro y; simp [g_queue_insert_sorted]
  | cons x xs ih =>
    intro y
    unfold g_queue_insert_sorted
    by_cases h : cmp n x > 0
    · rw [if_pos h]
      simp only [List.mem_cons, ih]
      tauto
    · rw [if_neg h]
      simp only [List.mem_cons]

/-- Sorted insertion preserves pairwise order for a comparator that never
orders a pair strictly in both directions and is transitive. -/
theorem pairwise_g_queue_insert_sorted (cmp : Notification → Notification → Int)
    (hflip : ∀ a b, 0 < cmp a b → cmp b a ≤ 0)
    (htrans : ∀ a b c, cmp a b ≤ 0 → cmp b c ≤ 0 → cmp a c ≤ 0)
    (n : Notification) : ∀ l : List Notification,
    List.Pairwise (fun a b => cmp a b ≤ 0) l →
    List.Pairwise (fun a b => cmp a b ≤ 0) (g_queue_insert_sorted cmp n l) := by
  intro l
  induction l with
  | nil => intro _; simp [g_queue_insert_sorted]
  | cons x xs ih =>
    intro hl
    rw [List.pairwise_cons] at hl
    obtain ⟨hx, hxs⟩ := hl
    unfold g_queue_insert_sorted
    by_cases h : cmp n x > 0
    · rw [if_pos h]
      rw [List.pairwise_cons]
      refine ⟨?_, ih hxs⟩
      intro y hy
      rw [mem_g_queue_insert_sorted] at hy
      rcases hy with hy | hy
      · rw [hy]
        exact hflip n x h
      · exact hx y hy
    · rw [if_neg h]
      rw [List.pairwise_cons]
      refine ⟨?_, List.pairwise_cons.2 ⟨hx, hxs⟩⟩
      intro y hy
      rcases List.mem_cons.1 hy with hy | hy
      · rw [hy]
        omega
      · exact htrans n x y (by omega) (hx y hy)

/-- Draining displayed entries into waiting preserves the pairwise order
of waiting. -/
theorem pairwise_queues_update_drain (cmp : Notification → Notification → Int)
    (hflip : ∀ a b, 0 < cmp a b → cmp b a ≤ 0)
    (htrans : ∀ a b c, cmp a b ≤ 0 → cmp b c ≤ 0 → cmp a c ≤ 0) :
    ∀ ds w : List Notification, List.Pairwise (fun a b => cmp a b ≤ 0) w →
      List.Pairwise (fun a b => cmp a b ≤ 0) (queues_update_drain cmp ds w) := by
  intro ds
  induction ds with
  | nil => intro w hw; exact hw
  | cons d ds ih =>
    intro w hw
    exact ih _ (pairwise_g_queue_insert_sorted cmp hflip htrans d w hw)

/-- The pushback walk preserves the pairwise order of waiting. -/
theorem pairwise_queues_update_pushback_snd (cmp : Notification → Notification → Int)
    (hflip : ∀ a b, 0 < cmp a b → cmp b a ≤ 0)
    (htrans : ∀ a b c, cmp a b ≤ 0 → cmp b c ≤ 0 → cmp a c ≤ 0) :
    ∀ ds w : List Notification, List.Pairwise (fun a b => cmp a b ≤ 0) w →
      List.Pairwise (fun a b => cmp a b ≤ 0) (queues_update_pushback cmp ds w).2 := by
  intro ds
  induction ds with
  | nil => intro w hw; exact hw
  | cons n ds ih =>
    intro w hw
    unfold queues_update_pushback
    by_cases h : n.fullscreen = FS.FS_PUSHBACK
    · rw [if_pos h]
      exact ih _ (pairwise_g_queue_insert_sorted cmp hflip htrans n w hw)
    · rw [if_neg h]
      exact ih w hw

/-- The promotion walk keeps both queues pairwise ordered: the waiting
residue is a sublist of the waiting snapshot and promoted entries are
inserted into displayed at sorted positions. -/
theorem pairwise_queues_update_promote (cmp : Notification → Notification → Int)
    (hflip : ∀ a b, 0 < cmp a b → cmp b a ≤ 0)
    (htrans : ∀ a b c, cmp a b ≤ 0 → cmp b c ≤ 0 → cmp a c ≤ 0)
    (fullscreen : Bool) (now : Int) :
    ∀ (rest kept : List Notification) (s : QState),
      List.Pairwise (fun a b => cmp a b ≤ 0) (kept.reverse ++ rest) →
      List.Pairwise (fun a b => cmp a b ≤ 0) s.displayed →
      List.Pairwise (fun a b => cmp a b ≤ 0)
        (queues_update_promote cmp fullscreen now rest kept s).waiting
      ∧ List.Pairwise (fun a b => cmp a b ≤ 0)
        (queues_update_promote cmp fullscreen now rest kept s).displayed := by
  intro rest
  induction rest with
  | nil =>
    intro kept s hwk hd
    unfold queues_update_promote
    exact ⟨by simpa using hwk, hd⟩
  | cons n rest ih =>
    intro kept s hwk hd
    unfold queues_update_promote
    by_cases hbreak : s.displayed_limit > 0 ∧ s.displayed.length ≥ s.displayed_limit
    · rw [if_pos hbreak]
      exact ⟨hwk, hd⟩
    · rw [if_neg hbreak]
      by_cases hskip : fullscreen = true
          ∧ (n.fullscreen = FS.FS_DELAY ∨ n.fullscreen = FS.FS_PUSHBACK)
      · rw [if_pos hskip]
        refine ih (n :: kept) s ?_ hd
        simpa [List.append_assoc] using hwk
      · rw [if_neg hskip]
        try dsimp only
        have hwk2 : List.Pairwise (fun a b => cmp a b ≤ 0) (kept.reverse ++ rest) :=
          hwk.sublist ((List.sublist_cons_self n rest).append_left kept.reverse)
        by_cases hs : (!n.redisplayed && n.script) = true
        · rw [if_pos hs]
          try dsimp only
          exact ih kept
            { s with scripts := { n with start := now } :: s.scripts,
                     displayed := g_queue_insert_sorted cmp { n with start := now } s.displayed }
            hwk2 (pairwise_g_queue_insert_sorted cmp hflip htrans _ _ hd)
        · rw [if_neg hs]
          try dsimp only
          exact ih kept
            { s with displayed := g_queue_insert_sorted cmp { n with start := now } s.displayed }
            hwk2 (pairwise_g_queue_insert_sorted cmp hflip htrans _ _ hd)

end Dunst

namespace Dunst

/-- C2 (amended): provided the injected comparator never orders a pair
strictly in both directions and is transitive, every update keeps both
waiting and displayed sorted, and so does every insert that does not
swap a matched slot in place — one that is discarded (empty text or a
control summary) or that falls through to a plain sorted insertion
because no duplicate-stack or id match exists.  (An insert that stacks a
duplicate or replaces by id rewrites the matched slot in place and can
leave a queue unsorted, and history_pop pushes the recalled entry onto
the head of waiting, which even a following update can leave unsorted —
see the counterexample.) -/
theorem C2_sorted_invariant (settings : Settings)
    (cmp : Notification → Notification → Int)
    (isDup : Notification → Notification → Bool)
    (hflip : ∀ a b, 0 < cmp a b → cmp b a ≤ 0)
    (htrans : ∀ a b c, cmp a b ≤ 0 → cmp b c ≤ 0 → cmp a c ≤ 0) :
    (∀ (fullscreen : Bool) (now : Int) (s : QState),
      queue_sorted cmp s.waiting → queue_sorted cmp s.displayed →
      queue_sorted cmp (queues_update cmp fullscreen now s).waiting
      ∧ queue_sorted cmp (queues_update cmp fullscreen now s).displayed)
    ∧ (∀ (now : Int) (n : Notification) (s : QState),
      queue_sorted cmp s.waiting → queue_sorted cmp s.displayed →
      (n.msg.length = 0 ∨ n.summary = "DUNST_COMMAND_PAUSE"
        ∨ n.summary = "DUNST_COMMAND_RESUME" ∨ n.summary = "DUNST_COMMAND_TOGGLE"
        ∨ (n.id = 0 ∧ (settings.stack_duplicates = false
            ∨ (stack_dup_scan isDup true now
                { n with id := s.next_notification_id + 1 } s.displayed = none
              ∧ stack_dup_scan isDup false now
                { n with id := s.next_notification_id + 1 } s.waiting = none)))
        ∨ (n.id ≠ 0 ∧ replace_id_scan true now n s.displayed = none
            ∧ replace_id_scan false now n s.waiting = none)) →
      queue_sorted cmp (queues_notification_insert settings cmp isDup now n s).2.waiting
      ∧ queue_sorted cmp (queues_notification_insert settings cmp isDup now n s).2.displayed) := by
  have hiff : ∀ l : List Notification,
      queue_sorted cmp l ↔ List.Pairwise (fun a b => cmp a b ≤ 0) l := by
    intro l
    exact @List.chain'_iff_pairwise _ _ ⟨fun a b c => htrans a b c⟩ l
  constructor
  · intro fullscreen now s hw hd
    rw [hiff] at hw hd
    rw [hiff, hiff]
    unfold queues_update
    by_cases hp : s.pause_displayed
    · rw [if_pos hp]
      exact ⟨pairwise_queues_update_drain cmp hflip htrans s.displayed s.waiting hw,
        List.Pairwise.nil⟩
    · rw [if_neg hp]
      by_cases hf : fullscreen = true
      · rw [if_pos hf]
        try dsimp only
        refine pairwise_queues_update_promote cmp hflip htrans fullscreen now
          (queues_update_pushback cmp s.displayed s.waiting).2 []
          { s with displayed := (queues_update_pushback cmp s.displayed s.waiting).1,
                   waiting := (queues_update_pushback cmp s.displayed s.waiting).2 }
          ?_ ?_
        · simpa using
            pairwise_queues_update_pushback_snd cmp hflip htrans s.displayed s.waiting hw
        · exact hd.sublist (queues_update_pushback_fst_sublist cmp s.displayed s.waiting)
      · rw [if_neg hf]
        exact pairwise_queues_update_promote cmp hflip htrans fullscreen now
          s.waiting [] s (by simpa using hw) hd
  · intro now n s hw hd hcond
    rw [hiff] at hw hd
    rw [hiff, hiff]
    by_cases hmsg : n.msg.length = 0
    · unfold queues_notification_insert
      rw [if_pos hmsg]
      by_cases ha : settings.always_run_script <;> simp [ha, hw, hd]
    · by_cases hp : n.summary = "DUNST_COMMAND_PAUSE"
      · unfold queues_notification_insert
        rw [if_neg hmsg, if_pos hp]
        exact ⟨hw, hd⟩
      · by_cases hr : n.summary = "DUNST_COMMAND_RESUME"
        · unfold queues_notification_insert
          rw [if_neg hmsg, if_neg hp, if_pos hr]
          exact ⟨hw, hd⟩
        · by_cases ht : n.summary = "DUNST_COMMAND_TOGGLE"
          · unfold queues_notification_insert
            rw [if_neg hmsg, if_neg hp, if_neg hr, if_pos ht]
            exact ⟨hw, hd⟩
          · have hcond2 : (n.id = 0 ∧ (settings.stack_duplicates = false
                ∨ (stack_dup_scan isDup true now
                    { n with id := s.next_notification_id + 1 } s.displayed = none
                  ∧ stack_dup_scan isDup false now
                    { n with id := s.next_notification_id + 1 } s.waiting = none)))
                ∨ (n.id ≠ 0 ∧ replace_id_scan true now n s.displayed = none
                    ∧ replace_id_scan false now n s.waiting = none) := by
              rcases hcond with h | h | h | h | h | h
              · exact absurd h hmsg
              · exact absurd h hp
              · exact absurd h hr
              · exact absurd h ht
              · exact Or.inl h
              · exact Or.inr h
            unfold queues_notification_insert
            rw [if_neg hmsg, if_neg hp, if_neg hr, if_neg ht]
            rcases hcond2 with ⟨hid, hstk⟩ | ⟨hid, hn1, hn2⟩
            · rw [if_pos hid]
              rcases hstk with hsd | ⟨hn1, hn2⟩
              · rw [if_neg (by rw [hsd]; exact Bool.false_ne_true)]
                have hins := pairwise_g_queue_insert_sorted cmp hflip htrans
                  { n with id := s.next_notification_id + 1 } s.waiting hw
                by_cases hpr : settings.print_notifications <;> simp [hpr, hins, hd]
              · by_cases hsd : settings.stack_duplicates = true
                · rw [if_pos hsd]
                  have hstack : queues_stack_duplicate isDup now
                      { n with id := s.next_notification_id + 1 }
                      { s with next_notification_id := s.next_notification_id + 1 } =
                      (false, { n with id := s.next_notification_id + 1 },
                        { s with next_notification_id := s.next_notification_id + 1 }) := by
                    unfold queues_stack_duplicate
                    rw [hn1, hn2]
                  simp only [hstack]
                  have hins := pairwise_g_queue_insert_sorted cmp hflip htrans
                    { n with id := s.next_notification_id + 1 } s.waiting hw
                  by_cases hpr : settings.print_notifications <;> simp [hpr, hins, hd]
                · rw [if_neg hsd]
                  have hins := pairwise_g_queue_insert_sorted cmp hflip htrans
                    { n with id := s.next_notification_id + 1 } s.waiting hw
                  by_cases hpr : settings.print_notifications <;> simp [hpr, hins, hd]
            · rw [if_neg hid]
              have hrep : queues_notification_replace_id now n s = (false, n, s) := by
                unfold queues_notification_replace_id
                rw [hn1, hn2]
              simp only [hrep]
              have hins := pairwise_g_queue_insert_sorted cmp hflip htrans n s.waiting hw
              by_cases hpr : settings.print_notifications <;> simp [hpr, hins, hd]

/-- Witness for C2 at concrete inputs: under the progress comparator, an
update from a sorted two-element waiting queue and a sorted displayed
queue keeps both sorted. -/
theorem C2_sorted_invariant_witness :
    queue_sorted cmpProg [{ nBase with id := 5, progress := 1 },
      { nBase with id := 6, progress := 2 }]
    ∧ queue_sorted cmpProg
        (queues_update cmpProg false 3
          { queues_init with waiting := [{ nBase with id := 5, progress := 1 },
            { nBase with id := 6, progress := 2 }] }).displayed :=
  ⟨by decide,
    ((C2_sorted_invariant stgBase cmpProg dup_never
        (fun a b h => by simp only [cmpProg] at h ⊢; omega)
        (fun a b c h1 h2 => by simp only [cmpProg] at h1 h2 ⊢; omega)).1 false 3
      { queues_init with waiting := [{ nBase with id := 5, progress := 1 },
        { nBase with id := 6, progress := 2 }] }
      (by decide) (by decide)).2⟩

/-- Counterexample to C2 as stated: first, an insert that replaces a
waiting entry by id swaps the slot in place and leaves waiting unsorted
under the (antisymmetric, transitive) progress comparator; second, a
history_pop pushes the recalled entry onto the head of waiting and a
following update (blocked by a full displayed limit) leaves waiting
unsorted, even though both queues were sorted beforehand. -/
theorem C2_counterexample :
    queue_sorted cmpProg [{ nBase with id := 5, progress := 1 },
      { nBase with id := 6, progress := 2 }]
    ∧ queue_sorted cmpProg ([] : List Notification)
    ∧ ¬ queue_sorted cmpProg
        (queues_notification_insert stgBase cmpProg dup_never 50
          { nBase with id := 6, progress := 0 }
          { queues_init with waiting := [{ nBase with id := 5, progress := 1 },
            { nBase with id := 6, progress := 2 }] }).2.waiting
    ∧ queue_sorted cmpProg [{ nBase with id := 8, progress := 1 }]
    ∧ queue_sorted cmpProg [{ nBase with id := 4, progress := 0 }]
    ∧ ¬ queue_sorted cmpProg
        (queues_update cmpProg false 0
          (queues_history_pop stgBase
            { queues_init with
                history := [{ nBase with id := 9, progress := 5 }]
                waiting := [{ nBase with id := 8, progress := 1 }]
                displayed := [{ nBase with id := 4, progress := 0 }]
                displayed_limit := 1 })).waiting := by
  refine ⟨by decide, by decide, by decide, by decide, by decide, by decide⟩

end Dunst
